import Mathlib

/-!
# Verification of the relatos-automation repository

Shallow embedding of the two Python source files:

* `manage_downloads.py` — the pending-download lifecycle store
  (`DownloadManager.cleanup_expired`, `cleanup_confirmed`, `confirm_download`,
  `list_pending`), modelled over the JSON mapping id → entry, here an
  association list `Pending`.
* `workflow_manager.py` — the Telegram intake conversation
  (`wait_for_message`, `check_for_cancel`, `collect_script_multipart`,
  `collect_video_info`, `main`) and its cursor (`update_offset`) discipline.

Conventions: times are integers (seconds); Python `datetime` subtraction and
`timedelta(hours=h)` become integer arithmetic with `h * 3600`; the network is
external, so functions are stated over the data that crosses it (event batches,
raw reply texts).  String helpers (`pyStrip`, `pySplit`, `pyWords`, `pyUpper`,
`pyLower`, `pyJoinNl`, `pyTake`) model the corresponding Python `str` methods
over the character list of the string, so they evaluate by kernel reduction.
-/

/-! ## Python string helpers -/

/-- Python `str.strip()`: remove leading and trailing whitespace. -/
def pyStrip (s : String) : String :=
  String.mk (((s.data.dropWhile Char.isWhitespace).reverse.dropWhile Char.isWhitespace).reverse)

/-- Helper for `pySplit`: accumulate the current field (reversed) while
splitting on `','`. -/
def splitCommaAux : List Char → List Char → List String
  | [], acc => [String.mk acc.reverse]
  | c :: rest, acc =>
    if c = ',' then String.mk acc.reverse :: splitCommaAux rest []
    else splitCommaAux rest (c :: acc)

/-- Python `str.split(',')`: split on every comma, keeping empty fields. -/
def pySplit (s : String) : List String :=
  splitCommaAux s.data []

/-- Helper for `pyWords`: split on whitespace runs, dropping empty fields. -/
def wordsAux : List Char → List Char → List String
  | [], acc => if acc.isEmpty then [] else [String.mk acc.reverse]
  | c :: rest, acc =>
    if c.isWhitespace then
      if acc.isEmpty then wordsAux rest [] else String.mk acc.reverse :: wordsAux rest []
    else wordsAux rest (c :: acc)

/-- Python `str.split()` (no separator): whitespace-delimited words, no empties. -/
def pyWords (s : String) : List String :=
  wordsAux s.data []

/-- Python `str.upper()` (ASCII). -/
def pyUpper (s : String) : String := String.mk (s.data.map Char.toUpper)

/-- Python `str.lower()` (ASCII). -/
def pyLower (s : String) : String := String.mk (s.data.map Char.toLower)

/-- Python `'\n'.join(parts)`. -/
def pyJoinNl : List String → String
  | [] => ""
  | [s] => s
  | s :: t :: rest => s ++ "\n" ++ pyJoinNl (t :: rest)

/-- Python slicing `s[:n]` (by code points). -/
def pyTake (s : String) (n : Nat) : String := String.mk (s.data.take n)

/-! ## Pending-download store (`manage_downloads.py`)

One entry of `productions/pending_downloads.json`.  `size_mb` is only ever
rendered into messages, so its numeric type is irrelevant; a missing
`'confirmed'` key (`info.get('confirmed')` falsy) is modelled as
`confirmed = false`. -/

structure PendingEntry where
  title : String
  size_mb : Nat
  download_url : String
  video_path : String
  /-- `info['timestamp']` as seconds. -/
  timestamp : Int
  confirmed : Bool
  confirmed_at : Option Int
  deriving Repr, DecidableEq

/-- The JSON object id → entry, in insertion order (a Python dict). -/
abbrev Pending := List (String × PendingEntry)

/-- `for video_id in to_remove: del pending[video_id]` — delete each key of
`keys` from the mapping in turn. -/
def removeKeys (pending : Pending) (keys : List String) : Pending :=
  keys.foldl (fun m k => m.filter (fun p => !(p.1 == k))) pending

/-- `DownloadManager.cleanup_expired(hours)`: collect every entry with
`not info.get('confirmed') and timestamp < now - timedelta(hours=hours)` into
`to_remove`, delete those ids, and report `expired_count`.  (The best-effort
`os.remove` of the backing file does not touch the mapping.) -/
def cleanup_expired (now hours : Int) (pending : Pending) : Pending × Nat :=
  let cutoff := now - hours * 3600
  let to_remove :=
    (pending.filter (fun p => !p.2.confirmed && decide (p.2.timestamp < cutoff))).map Prod.fst
  (removeKeys pending to_remove, to_remove.length)

/-- `DownloadManager.cleanup_confirmed()`: delete every entry with
`info.get('confirmed')` truthy, reporting how many. -/
def cleanup_confirmed (pending : Pending) : Pending × Nat :=
  let to_remove := (pending.filter (fun p => p.2.confirmed)).map Prod.fst
  (removeKeys pending to_remove, to_remove.length)

/-- `DownloadManager.confirm_download(video_id)`: if `video_id not in pending`
report failure (`False`) and leave the mapping as loaded; otherwise mark the
entry confirmed, best-effort delete the backing file, remove the entry from the
mapping, persist, and report `True`.  (The in-place mutation of `info` is
invisible in the saved mapping because the entry is deleted right after.)
`workflow_manager.confirm_download` has the same mapping semantics. -/
def confirm_download (pending : Pending) (video_id : String) : Bool × Pending :=
  if !(pending.any (fun p => p.1 == video_id)) then
    (false, pending)
  else
    (true, pending.filter (fun p => !(p.1 == video_id)))

/-- The ids rendered by `DownloadManager.list_pending` (one block per
`pending.items()` element). -/
def list_shown_ids (pending : Pending) : List String :=
  pending.map Prod.fst

/-! ## Intake conversation (`workflow_manager.py`) -/

/-- `collect_video_info`, tags step:
`tags = [tag.strip() for tag in tags_text.split(',')]`. -/
def parse_tags (tags_text : String) : List String :=
  (pySplit tags_text).map pyStrip

/-- The claim's (and spec §4.3's) tag parser: split on commas, trim, and drop
tokens that are empty after trimming. -/
def parse_tags_claimed (tags_text : String) : List String :=
  ((pySplit tags_text).map pyStrip).filter (fun tg => !(tg == ""))

/-- The numbers the end-of-conversation summary message reports
(`collect_video_info`, after the script step). -/
structure SummaryStats where
  palavra_count : Nat
  tempo_estimado : ℚ
  segmentos : ℤ
  preview : String
  deriving Repr, DecidableEq

/-- `palavra_count = len(roteiro.split())`, `tempo_estimado = palavra_count / 150`,
`Segmentos (~30s): int(tempo_estimado * 2)` (Python `int()` truncates toward
zero; the value is nonnegative, so it is the floor), and
`preview = roteiro[:200] + '...' if len(roteiro) > 200 else roteiro`. -/
def summary_stats (roteiro : String) : SummaryStats :=
  let palavra_count := (pyWords roteiro).length
  let tempo_estimado := (palavra_count : ℚ) / 150
  { palavra_count := palavra_count
    tempo_estimado := tempo_estimado
    segmentos := Int.floor (tempo_estimado * 2)
    preview := if 200 < roteiro.length then pyTake roteiro 200 ++ "..." else roteiro }

/-- The claim's segment formula: `ceil(duration_minutes * 2)`. -/
def segmentos_claimed (roteiro : String) : ℤ :=
  Int.ceil ((summary_stats roteiro).tempo_estimado * 2)

/-- The amended segment formula: the reported count is
`⌊word_count / 75⌋` (that is, `int(tempo_estimado * 2)`, a floor). -/
def segmentos_amended (roteiro : String) : ℤ :=
  Int.floor (((pyWords roteiro).length : ℚ) / 75)

/-- One inbound update relevant to `collect_script_multipart`: a text message,
a document upload (with its declared file name and, for `.txt` files, the
content the secondary `getFile` + download fetch returns), or anything the loop
skips (updates without `message`, messages from another chat). -/
inductive ScriptEvent where
  | text (raw : String)
  | document (file_name : String) (content : String)
  | other
  deriving Repr, DecidableEq

/-- Result of the script step: `WorkflowCancelled` escaped, or the function
returned (`None` on timeout with no fragments, `Some script` otherwise). -/
inductive ScriptOutcome where
  | returned (script : Option String)
  | cancelled
  deriving Repr, DecidableEq

/-- `text.lower() in ['/cancel', '/cancelar', 'cancel', 'cancelar']`. -/
def cancel_words : List String := ["/cancel", "/cancelar", "cancel", "cancelar"]

/-- `text.upper() in ['PRONTO', 'DONE', 'FIM', 'FINISH']`. -/
def finish_words : List String := ["PRONTO", "DONE", "FIM", "FINISH"]

/-- `file_name.endswith('.txt')`. -/
def endsWithDotTxt (file_name : String) : Bool :=
  ".txt".data.isSuffixOf file_name.data

/-- The body of `collect_script_multipart`'s polling loop, over the stream of
inbound events (the step timeout is the end of the list; transport failures
only delay the loop and deliver nothing, so they do not appear).  Mirrors the
source order: document check first (a successful `.txt` fetch returns the
content verbatim, discarding fragments), then `text.strip()`, skip empties,
cancel directives raise, a finish sentinel with no fragments is rejected and
collection continues, a sentinel with fragments returns
`'\n'.join(roteiro_partes)`, and any other text is appended as a fragment.
On timeout the collected fragments are joined, or `None` if there are none. -/
def collect_script_loop : List String → List ScriptEvent → ScriptOutcome
  | partes, [] =>
    if partes.isEmpty then ScriptOutcome.returned none
    else ScriptOutcome.returned (some (pyJoinNl partes))
  | partes, ScriptEvent.other :: rest => collect_script_loop partes rest
  | partes, ScriptEvent.document file_name content :: rest =>
    if endsWithDotTxt file_name then ScriptOutcome.returned (some content)
    else collect_script_loop partes rest
  | partes, ScriptEvent.text raw :: rest =>
    if pyStrip raw = "" then collect_script_loop partes rest
    else if pyLower (pyStrip raw) ∈ cancel_words then ScriptOutcome.cancelled
    else if pyUpper (pyStrip raw) ∈ finish_words then
      if partes.isEmpty then collect_script_loop partes rest
      else ScriptOutcome.returned (some (pyJoinNl partes))
    else collect_script_loop (partes ++ [pyStrip raw]) rest

/-- `collect_script_multipart`: run the loop with no fragments collected. -/
def collect_script_multipart (events : List ScriptEvent) : ScriptOutcome :=
  collect_script_loop [] events

/-- What one `wait_for_message` call yields to `collect_video_info`: a
(non-empty, stripped) reply text, `None` after the step timeout, or the
`WorkflowCancelled` exception. -/
inductive StepResult where
  | reply (text : String)
  | timedOut
  | cancelled
  deriving Repr, DecidableEq

/-- The fields of the `video_data` record built at the end of a successful
conversation (`video_id`/`timestamp`/`status` are wall-clock metadata and
carry no claim content). -/
structure VideoData where
  title : String
  description : String
  tags : List String
  script : String
  word_count : Nat
  estimated_duration : ℚ
  deriving Repr, DecidableEq

/-- `collect_video_info` over the results of its four steps.  A raised
`WorkflowCancelled` is caught by the surrounding `except` and becomes `None`;
each `if not <answer>` guard returns `None` (timeout message); otherwise the
production record is built and stored. -/
def collect_video_info (titulo descricao tags_text : StepResult)
    (roteiro : ScriptOutcome) : Option VideoData :=
  match titulo with
  | StepResult.cancelled => none
  | StepResult.timedOut => none
  | StepResult.reply tit =>
    if tit = "" then none else
    match descricao with
    | StepResult.cancelled => none
    | StepResult.timedOut => none
    | StepResult.reply desc =>
      if desc = "" then none else
      match tags_text with
      | StepResult.cancelled => none
      | StepResult.timedOut => none
      | StepResult.reply tg =>
        if tg = "" then none else
        match roteiro with
        | ScriptOutcome.cancelled => none
        | ScriptOutcome.returned none => none
        | ScriptOutcome.returned (some rot) =>
          if rot = "" then none else
          some { title := tit
                 description := desc
                 tags := parse_tags tg
                 script := rot
                 word_count := (pyWords rot).length
                 estimated_duration := ((pyWords rot).length : ℚ) / 150 }

/-- What the production phase of `main` does after a successful intake:
`create_video.run_production` returns truthy, returns falsy, raises
`WorkflowCancelled`, or raises any other exception. -/
inductive ProdPhase where
  | success
  | failure
  | cancelledDuring
  | raisedError
  deriving Repr, DecidableEq

/-- `main()`'s return value (the process exit status via `sys.exit(main())`):
1 if either environment variable is missing, 1 if `collect_video_info` came
back `None` (timeout, or cancellation during intake), else 0/1 from
`run_production`'s outcome, 2 if `WorkflowCancelled` escapes the `try` (only
the production phase can raise it there), 1 on any other exception. -/
def main_exit (hasToken hasChat : Bool) (intake : Option VideoData)
    (prod : ProdPhase) : Nat :=
  if !hasToken then 1
  else if !hasChat then 1
  else
    match intake with
    | none => 1
    | some _ =>
      match prod with
      | ProdPhase.success => 0
      | ProdPhase.failure => 1
      | ProdPhase.cancelledDuring => 2
      | ProdPhase.raisedError => 1

/-! ## Update cursor (`self.update_offset`)

`wait_for_message`, `check_for_cancel`, `collect_script_multipart` and
`handle_download_commands` all run the same discipline over `getUpdates`
batches: on a non-ok/failed response the offset is untouched and the loop
retries; otherwise, for each update in order, `self.update_offset =
update['update_id'] + 1` is executed before the update is examined.  An
update here is just its `update_id` sequence number. -/

/-- One `getUpdates` round-trip: `ok` is false on transport failure or a
non-ok payload (the batch is then never read). -/
structure PollResult where
  ok : Bool
  batch : List Nat
  deriving Repr, DecidableEq

/-- The offset after the `for update in updates` loop:
each iteration overwrites `update_offset` with `update_id + 1`. -/
def advance_offset (offset : Nat) (batch : List Nat) : Nat :=
  batch.foldl (fun _ uid => uid + 1) offset

/-- The offset after one poll: unchanged unless the response was ok. -/
def poll_step (offset : Nat) (r : PollResult) : Nat :=
  if r.ok then advance_offset offset r.batch else offset

/-- The offset after a sequence of polls. -/
def run_polls : Nat → List PollResult → Nat
  | offset, [] => offset
  | offset, r :: rs => run_polls (poll_step offset r) rs

/-- The events of one batch as they are evaluated, paired with the cursor
value at the moment of evaluation (which the loop has just set to
`update_id + 1`). -/
def process_trace (batch : List Nat) : List (Nat × Nat) :=
  batch.map (fun uid => (uid + 1, uid))

/-- All evaluated events across a sequence of polls, with the cursor value at
their evaluation. -/
def run_trace : Nat → List PollResult → List (Nat × Nat)
  | _, [] => []
  | offset, r :: rs =>
    (if r.ok then process_trace r.batch else []) ++ run_trace (poll_step offset r) rs

/-- The long-poll server contract (spec §4.1): a batch served against cursor
`offset` holds strictly increasing sequence numbers, none below `offset`. -/
def batch_ok : Nat → List Nat → Bool
  | _, [] => true
  | offset, uid :: rest => decide (offset ≤ uid) && batch_ok (uid + 1) rest

/-- The server contract across a sequence of polls, each judged against the
cursor the client would present at that point. -/
def feed_ok : Nat → List PollResult → Bool
  | _, [] => true
  | offset, r :: rs => (!r.ok || batch_ok offset r.batch) && feed_ok (poll_step offset r) rs

/-! ## Theorems: pending-download store -/

theorem mem_removeKeys (keys : List String) (pending : Pending) (x : String × PendingEntry) :
    x ∈ removeKeys pending keys ↔ x ∈ pending ∧ x.1 ∉ keys := by
  induction keys generalizing pending with
  | nil => simp [removeKeys]
  | cons k ks ih =>
    show x ∈ removeKeys (pending.filter _) ks ↔ _
    rw [ih]
    simp only [List.mem_filter, Bool.not_eq_true', beq_eq_false_iff_ne, List.mem_cons]
    constructor
    · rintro ⟨⟨hx, hk⟩, hks⟩
      exact ⟨hx, by simp [hk, hks]⟩
    · rintro ⟨hx, hnot⟩
      push_neg at hnot
      exact ⟨⟨hx, hnot.1⟩, hnot.2⟩

theorem key_eq_of_nodup (pending : Pending) (h : (pending.map Prod.fst).Nodup)
    (p q : String × PendingEntry) (hp : p ∈ pending) (hq : q ∈ pending)
    (hkey : p.1 = q.1) : p = q := by
  induction pending with
  | nil => cases hp
  | cons a t ih =>
    simp only [List.map_cons, List.nodup_cons] at h
    rcases List.mem_cons.mp hp with rfl | hp' <;>
      rcases List.mem_cons.mp hq with rfl | hq'
    · rfl
    · exact absurd (hkey ▸ List.mem_map_of_mem Prod.fst hq') h.1
    · exact absurd (hkey ▸ List.mem_map_of_mem Prod.fst hp') h.1
    · exact ih h.2 hp' hq'

/-- C1: an entry with `confirmed=false` created at time `T` is removed by
`cleanup_expired` with a 24-hour threshold iff `now - T > 24h` (strict); an
entry whose age is exactly 24h is retained, and an entry with `confirmed=true`
is never removed by this operation. -/
theorem relatos_C1 (now : Int) (pending : Pending) (id : String) (e : PendingEntry)
    (hmem : (id, e) ∈ pending) (hkeys : (pending.map Prod.fst).Nodup) :
    (e.confirmed = false →
      (((id, e) ∉ (cleanup_expired now 24 pending).1) ↔ 24 * 3600 < now - e.timestamp)) ∧
    (e.confirmed = false → now - e.timestamp = 24 * 3600 →
      (id, e) ∈ (cleanup_expired now 24 pending).1) ∧
    (e.confirmed = true → (id, e) ∈ (cleanup_expired now 24 pending).1) := by
  have hchar :
      id ∈ ((pending.filter
          (fun p => !p.2.confirmed && decide (p.2.timestamp < now - 24 * 3600))).map Prod.fst)
        ↔ (!e.confirmed && decide (e.timestamp < now - 24 * 3600)) = true := by
    constructor
    · intro h
      rcases List.mem_map.mp h with ⟨p, hp, hpid⟩
      rcases List.mem_filter.mp hp with ⟨hpmem, hpred⟩
      have hpe : p = (id, e) := key_eq_of_nodup pending hkeys p (id, e) hpmem hmem hpid
      subst hpe
      exact hpred
    · intro h
      exact List.mem_map.mpr ⟨(id, e), List.mem_filter.mpr ⟨hmem, h⟩, rfl⟩
  have hmemres : ((id, e) ∈ (cleanup_expired now 24 pending).1) ↔
      ¬((!e.confirmed && decide (e.timestamp < now - 24 * 3600)) = true) := by
    show ((id, e) ∈ removeKeys pending _) ↔ _
    rw [mem_removeKeys]
    constructor
    · rintro ⟨_, hnot⟩ h
      exact hnot (hchar.mpr h)
    · intro h
      exact ⟨hmem, fun hc => h (hchar.mp hc)⟩
  refine ⟨?_, ?_, ?_⟩
  · intro hc
    have hni : ((id, e) ∉ (cleanup_expired now 24 pending).1) ↔
        (!e.confirmed && decide (e.timestamp < now - 24 * 3600)) = true := by
      rw [hmemres]
      exact not_not
    rw [hni]
    simp only [hc, Bool.not_false, Bool.true_and, decide_eq_true_eq]
    omega
  · intro hc heq
    rw [hmemres]
    simp only [hc, Bool.not_false, Bool.true_and, decide_eq_true_eq]
    omega
  · intro hc
    rw [hmemres]
    simp [hc]

theorem relatos_C1_witness :
    ((("old", ⟨"Old", 1, "u", "p", 0, false, none⟩) ∉
        (cleanup_expired 86401 24
          [("old", ⟨"Old", 1, "u", "p", 0, false, none⟩),
           ("edge", ⟨"Edge", 1, "u", "p", 1, false, none⟩),
           ("done", ⟨"Done", 1, "u", "p", 0, true, none⟩)]).1) ↔
      24 * 3600 < 86401 - ((⟨"Old", 1, "u", "p", 0, false, none⟩ : PendingEntry)).timestamp) ∧
    (("edge", ⟨"Edge", 1, "u", "p", 1, false, none⟩) ∈
      (cleanup_expired 86401 24
        [("old", ⟨"Old", 1, "u", "p", 0, false, none⟩),
         ("edge", ⟨"Edge", 1, "u", "p", 1, false, none⟩),
         ("done", ⟨"Done", 1, "u", "p", 0, true, none⟩)]).1) ∧
    (("done", ⟨"Done", 1, "u", "p", 0, true, none⟩) ∈
      (cleanup_expired 86401 24
        [("old", ⟨"Old", 1, "u", "p", 0, false, none⟩),
         ("edge", ⟨"Edge", 1, "u", "p", 1, false, none⟩),
         ("done", ⟨"Done", 1, "u", "p", 0, true, none⟩)]).1) :=
  ⟨(relatos_C1 86401 _ "old" _ (by decide) (by decide)).1 rfl,
   (relatos_C1 86401 _ "edge" _ (by decide) (by decide)).2.1 rfl (by decide),
   (relatos_C1 86401 _ "done" _ (by decide) (by decide)).2.2 rfl⟩

/-- C5: `confirm_download` on an absent id reports failure and leaves the
mapping unchanged; on a present id it reports success, after which `list`
no longer shows the id and a second `confirm_download` on the same id fails
with the mapping unchanged. -/
theorem relatos_C5 (pending : Pending) (id : String) :
    ((∀ e : PendingEntry, (id, e) ∉ pending) →
      confirm_download pending id = (false, pending)) ∧
    (∀ e : PendingEntry, (id, e) ∈ pending →
      (confirm_download pending id).1 = true ∧
      id ∉ list_shown_ids (confirm_download pending id).2 ∧
      confirm_download (confirm_download pending id).2 id =
        (false, (confirm_download pending id).2)) := by
  have hany : (pending.any (fun p => p.1 == id)) = true ↔ ∃ e : PendingEntry, (id, e) ∈ pending := by
    simp only [List.any_eq_true, beq_iff_eq]
    constructor
    · rintro ⟨⟨a, b⟩, hab, rfl⟩
      exact ⟨b, hab⟩
    · rintro ⟨e, he⟩
      exact ⟨(id, e), he, rfl⟩
  constructor
  · intro habs
    have hfalse : (pending.any (fun p => p.1 == id)) = false := by
      rw [← Bool.not_eq_true, hany]
      rintro ⟨e, he⟩
      exact habs e he
    simp [confirm_download, hfalse]
  · intro e he
    have htrue : (pending.any (fun p => p.1 == id)) = true := hany.mpr ⟨e, he⟩
    have hres : confirm_download pending id = (true, pending.filter (fun p => !(p.1 == id))) := by
      simp [confirm_download, htrue]
    refine ⟨by rw [hres], ?_, ?_⟩
    · rw [hres]
      simp only [list_shown_ids, List.mem_map]
      rintro ⟨p, hp, hpid⟩
      have := (List.mem_filter.mp hp).2
      rw [hpid] at this
      simp at this
    · have hgone : ((pending.filter (fun p => !(p.1 == id))).any (fun p => p.1 == id)) = false := by
        rw [← Bool.not_eq_true, List.any_eq_true]
        rintro ⟨p, hp, hpid⟩
        have := (List.mem_filter.mp hp).2
        rw [hpid] at this
        simp at this
      rw [hres]
      simp [confirm_download, hgone]

theorem relatos_C5_witness :
    confirm_download ([("v1", ⟨"V1", 1, "u", "p", 0, false, none⟩)] : Pending) "zz" =
      (false, [("v1", ⟨"V1", 1, "u", "p", 0, false, none⟩)]) ∧
    (confirm_download ([("v1", ⟨"V1", 1, "u", "p", 0, false, none⟩)] : Pending) "v1").1 = true ∧
    "v1" ∉ list_shown_ids (confirm_download
      ([("v1", ⟨"V1", 1, "u", "p", 0, false, none⟩)] : Pending) "v1").2 ∧
    confirm_download
        (confirm_download ([("v1", ⟨"V1", 1, "u", "p", 0, false, none⟩)] : Pending) "v1").2 "v1" =
      (false, (confirm_download ([("v1", ⟨"V1", 1, "u", "p", 0, false, none⟩)] : Pending) "v1").2) :=
  ⟨(relatos_C5 [("v1", ⟨"V1", 1, "u", "p", 0, false, none⟩)] "zz").1
      (fun e hmem =>
        absurd (congrArg Prod.fst (List.mem_singleton.mp hmem))
          (show ¬("zz" : String) = "v1" by decide)),
    (relatos_C5 [("v1", ⟨"V1", 1, "u", "p", 0, false, none⟩)] "v1").2
      ⟨"V1", 1, "u", "p", 0, false, none⟩ (by decide)⟩

/-- C6: `cleanup_confirmed` is idempotent on the mapping — a second run with no
intervening entry creation removes zero entries and leaves the mapping equal to
the result of the first run. -/
theorem relatos_C6 (pending : Pending) :
    (cleanup_confirmed (cleanup_confirmed pending).1).2 = 0 ∧
    (cleanup_confirmed (cleanup_confirmed pending).1).1 = (cleanup_confirmed pending).1 := by
  have hnone : ∀ x ∈ (cleanup_confirmed pending).1, x.2.confirmed = false := by
    intro x hx
    have hx' := (mem_removeKeys _ _ _).mp hx
    by_contra hc
    rw [Bool.not_eq_false] at hc
    exact hx'.2 (List.mem_map_of_mem Prod.fst (List.mem_filter.mpr ⟨hx'.1, hc⟩))
  have hfilter : ((cleanup_confirmed pending).1.filter (fun p => p.2.confirmed)) = [] := by
    rw [List.filter_eq_nil_iff]
    intro a ha
    simp [hnone a ha]
  constructor
  · show (((cleanup_confirmed pending).1.filter (fun p => p.2.confirmed)).map Prod.fst).length = 0
    rw [hfilter]
    rfl
  · show removeKeys (cleanup_confirmed pending).1
        (((cleanup_confirmed pending).1.filter (fun p => p.2.confirmed)).map Prod.fst) =
      (cleanup_confirmed pending).1
    rw [hfilter]
    rfl

/-! ## Theorems: tags, summary, script aggregation -/

theorem length_splitCommaAux (l acc : List Char) :
    (splitCommaAux l acc).length = l.count ',' + 1 := by
  induction l generalizing acc with
  | nil => simp [splitCommaAux]
  | cons c rest ih =>
    by_cases hc : c = ','
    · subst hc
      simp [splitCommaAux, ih, List.count_cons]
    · simp [splitCommaAux, hc, ih, List.count_cons]

/-- C2 counterexample: the tags parser keeps tokens that are empty after
trimming, so the parsed list can contain the empty string — on input
`"WWII,,History"` the code yields `["WWII", "", "History"]` while the claimed
empty-dropping parser yields `["WWII", "History"]`. -/
theorem relatos_C2_counterexample :
    parse_tags "WWII,,History" = ["WWII", "", "History"] ∧
    parse_tags_claimed "WWII,,History" = ["WWII", "History"] ∧
    "" ∈ parse_tags "WWII,,History" := by
  refine ⟨by decide, by decide, by decide⟩

/-- C2 (amended): the parsed tag list is obtained by splitting on commas and
trimming whitespace from each token; tokens that are empty after trimming are
retained, so the list always has exactly one element per comma-separated field
(number of commas + 1) and may contain empty strings. -/
theorem relatos_C2_amended (s : String) :
    parse_tags s = (pySplit s).map pyStrip ∧
    (parse_tags s).length = s.data.count ',' + 1 := by
  refine ⟨rfl, ?_⟩
  simp [parse_tags, pySplit, length_splitCommaAux]

/-- C3 counterexample: the summary's segment count is `int(tempo * 2)`
(truncation), not `ceil(tempo * 2)` — on the one-word script `"hello"` the
code reports 0 segments while the claimed formula gives 1. -/
theorem relatos_C3_counterexample :
    (summary_stats "hello").segmentos = 0 ∧ segmentos_claimed "hello" = 1 ∧
    (summary_stats "hello").segmentos ≠ segmentos_claimed "hello" := by
  have hw : (pyWords "hello").length = 1 := by decide
  have harg : (((pyWords "hello").length : ℚ)) / 150 * 2 = 1 / 75 := by
    rw [hw]
    norm_num
  have hf : (summary_stats "hello").segmentos = 0 := by
    show Int.floor ((((pyWords "hello").length : ℚ)) / 150 * 2) = 0
    rw [harg, Int.floor_eq_zero_iff]
    constructor <;> norm_num
  have hc : segmentos_claimed "hello" = 1 := by
    show Int.ceil ((((pyWords "hello").length : ℚ)) / 150 * 2) = 1
    rw [harg, Int.ceil_eq_iff]
    norm_num
  exact ⟨hf, hc, by rw [hf, hc]; decide⟩

/-- C3 (amended): the end-of-conversation summary reports word count
`len(roteiro.split())`, estimated duration `word_count / 150` minutes, a
segment count of `⌊duration * 2⌋ = ⌊word_count / 75⌋` (Python `int()`
truncation, not a ceiling), and a preview equal to the script unless it
exceeds 200 characters, in which case its first 200 characters plus an
ellipsis. -/
theorem relatos_C3_amended (roteiro : String) :
    (summary_stats roteiro).palavra_count = (pyWords roteiro).length ∧
    (summary_stats roteiro).tempo_estimado = ((pyWords roteiro).length : ℚ) / 150 ∧
    (summary_stats roteiro).segmentos = segmentos_amended roteiro ∧
    (summary_stats roteiro).preview =
      (if 200 < roteiro.length then pyTake roteiro 200 ++ "..." else roteiro) := by
  refine ⟨rfl, rfl, ?_, rfl⟩
  show Int.floor (((pyWords roteiro).length : ℚ) / 150 * 2) =
    Int.floor (((pyWords roteiro).length : ℚ) / 75)
  congr 1
  ring

/-- C7: the script assembled from the two text fragments `"Part one."` and
`"Part two."` followed by the sentinel `"PRONTO"` is identical to the script
returned for a single uploaded `.txt` document with content
`"Part one.\nPart two."` — both are that very string. -/
theorem relatos_C7 :
    collect_script_multipart
        [ScriptEvent.text "Part one.", ScriptEvent.text "Part two.", ScriptEvent.text "PRONTO"] =
      ScriptOutcome.returned (some "Part one.\nPart two.") ∧
    collect_script_multipart [ScriptEvent.document "roteiro.txt" "Part one.\nPart two."] =
      ScriptOutcome.returned (some "Part one.\nPart two.") ∧
    collect_script_multipart
        [ScriptEvent.text "Part one.", ScriptEvent.text "Part two.", ScriptEvent.text "PRONTO"] =
      collect_script_multipart [ScriptEvent.document "roteiro.txt" "Part one.\nPart two."] := by
  refine ⟨by decide, by decide, by decide⟩

/-- C9: a finish sentinel arriving while zero fragments are collected is
rejected — the loop returns nothing at that point, the fragment list stays
empty, and collection continues over the remaining events of the same step;
in particular, if nothing else arrives the step ends with no script. -/
theorem relatos_C9 (raw : String) (rest : List ScriptEvent)
    (hne : pyStrip raw ≠ "")
    (hnc : pyLower (pyStrip raw) ∉ cancel_words)
    (hfin : pyUpper (pyStrip raw) ∈ finish_words) :
    collect_script_loop [] (ScriptEvent.text raw :: rest) = collect_script_loop [] rest ∧
    collect_script_multipart [ScriptEvent.text raw] = ScriptOutcome.returned none := by
  have hstep : ∀ evs, collect_script_loop [] (ScriptEvent.text raw :: evs) =
      collect_script_loop [] evs := by
    intro evs
    simp [collect_script_loop, hne, hnc, hfin]
  refine ⟨hstep rest, ?_⟩
  show collect_script_loop [] [ScriptEvent.text raw] = ScriptOutcome.returned none
  rw [hstep []]
  rfl

theorem relatos_C9_witness :
    collect_script_loop [] [ScriptEvent.text "PRONTO"] = collect_script_loop [] [] ∧
    collect_script_multipart [ScriptEvent.text "PRONTO"] = ScriptOutcome.returned none :=
  relatos_C9 "PRONTO" [] (by decide) (by decide) (by decide)

/-! ## Theorems: timeout path, exit status -/

theorem length_append_str (a b : String) : (a ++ b).length = a.length + b.length := by
  show (a.data ++ b.data).length = a.data.length + b.data.length
  exact List.length_append a.data b.data

theorem pyJoinNl_ne_empty (p : String) (rest : List String) (hp : p ≠ "") :
    pyJoinNl (p :: rest) ≠ "" := by
  cases rest with
  | nil => simpa [pyJoinNl] using hp
  | cons q t =>
    intro h
    have hl := congrArg String.length h
    rw [show pyJoinNl (p :: q :: t) = p ++ "\n" ++ pyJoinNl (q :: t) from rfl,
      length_append_str, length_append_str] at hl
    have h1 : ("\n").length = 1 := rfl
    have h2 : ("").length = 0 := rfl
    omega

/-- C10: when the script step's overall timeout elapses, the outcome depends on
the collected fragments — with at least one fragment the step returns the
fragments joined with newlines and the conversation goes on to build the
production record; with zero fragments the step returns nothing and the
conversation ends as abandonment (`None`, no record). -/
theorem relatos_C10 (t d g : String) (partes : List String)
    (ht : t ≠ "") (hd : d ≠ "") (hg : g ≠ "")
    (hne : partes ≠ []) (hstrings : ∀ p ∈ partes, p ≠ "") :
    collect_script_loop partes [] = ScriptOutcome.returned (some (pyJoinNl partes)) ∧
    (collect_video_info (StepResult.reply t) (StepResult.reply d) (StepResult.reply g)
        (ScriptOutcome.returned (some (pyJoinNl partes)))).isSome = true ∧
    collect_script_loop [] [] = ScriptOutcome.returned none ∧
    collect_video_info (StepResult.reply t) (StepResult.reply d) (StepResult.reply g)
        (ScriptOutcome.returned none) = none := by
  obtain ⟨p, rest, rfl⟩ : ∃ p rest, partes = p :: rest := by
    cases partes with
    | nil => exact absurd rfl hne
    | cons p rest => exact ⟨p, rest, rfl⟩
  have hjoin : pyJoinNl (p :: rest) ≠ "" :=
    pyJoinNl_ne_empty p rest (hstrings p (List.mem_cons_self p rest))
  refine ⟨?_, ?_, rfl, ?_⟩
  · simp [collect_script_loop]
  · simp [collect_video_info, ht, hd, hg, hjoin]
  · simp [collect_video_info, ht, hd, hg]

theorem relatos_C10_witness :
    collect_script_loop ["Hello world"] [] =
      ScriptOutcome.returned (some (pyJoinNl ["Hello world"])) ∧
    (collect_video_info (StepResult.reply "T") (StepResult.reply "D")
        (StepResult.reply "WWII, History")
        (ScriptOutcome.returned (some (pyJoinNl ["Hello world"])))).isSome = true ∧
    collect_script_loop [] [] = ScriptOutcome.returned none ∧
    collect_video_info (StepResult.reply "T") (StepResult.reply "D")
        (StepResult.reply "WWII, History") (ScriptOutcome.returned none) = none :=
  relatos_C10 "T" "D" "WWII, History" ["Hello world"] (by decide) (by decide) (by decide)
    (by decide) (by decide)

/-- C4 counterexample: a step timeout does not exit with status 0 — with the
title step timing out (and everything downstream fine), `main` returns 1, the
same value as an unhandled exception, contradicting the claimed 0. -/
theorem relatos_C4_counterexample :
    main_exit true true
        (collect_video_info StepResult.timedOut (StepResult.reply "desc")
          (StepResult.reply "WWII, History") (ScriptOutcome.returned (some "Hello")))
        ProdPhase.success = 1 ∧
    main_exit true true
        (collect_video_info StepResult.timedOut (StepResult.reply "desc")
          (StepResult.reply "WWII, History") (ScriptOutcome.returned (some "Hello")))
        ProdPhase.success ≠ 0 := by
  refine ⟨rfl, by decide⟩

/-- C4 (amended): the exit status is 0 exactly when the conversation completed
and production succeeded; any step timeout makes the intake result `None` and
the status 1 (the same non-zero value as an unhandled exception, a failed
production, or a missing environment variable); the distinct status 2 is
returned exactly when a cancellation is raised during the production phase —
a cancellation during intake is caught inside `collect_video_info`, yields
`None`, and exits with 1. -/
theorem relatos_C4_amended (t d g : StepResult) (r : ScriptOutcome) (prod : ProdPhase) :
    (main_exit true true (collect_video_info t d g r) prod = 0 ↔
      (collect_video_info t d g r).isSome = true ∧ prod = ProdPhase.success) ∧
    (main_exit true true (collect_video_info t d g r) prod = 2 ↔
      (collect_video_info t d g r).isSome = true ∧ prod = ProdPhase.cancelledDuring) ∧
    collect_video_info StepResult.timedOut d g r = none ∧
    collect_video_info t StepResult.timedOut g r = none ∧
    collect_video_info t d StepResult.timedOut r = none ∧
    collect_video_info t d g (ScriptOutcome.returned none) = none ∧
    collect_video_info StepResult.cancelled d g r = none ∧
    collect_video_info t d g ScriptOutcome.cancelled = none ∧
    main_exit true true none prod = 1 ∧
    main_exit false true (collect_video_info t d g r) prod = 1 := by
  have hmain : ∀ (o : Option VideoData) (pr : ProdPhase),
      (main_exit true true o pr = 0 ↔ o.isSome = true ∧ pr = ProdPhase.success) ∧
      (main_exit true true o pr = 2 ↔ o.isSome = true ∧ pr = ProdPhase.cancelledDuring) := by
    intro o pr
    cases o <;> cases pr <;> simp [main_exit]
  refine ⟨(hmain _ _).1, (hmain _ _).2, rfl, ?_, ?_, ?_, rfl, ?_, rfl, rfl⟩
  · cases t <;> simp [collect_video_info]
  · cases t <;> cases d <;> simp [collect_video_info]
  · cases t <;> cases d <;> cases g <;> simp [collect_video_info]
  · cases t <;> cases d <;> cases g <;> simp [collect_video_info]

/-! ## Theorems: update-cursor discipline -/

theorem le_advance_offset (batch : List Nat) (offset : Nat)
    (h : batch_ok offset batch = true) : offset ≤ advance_offset offset batch := by
  induction batch generalizing offset with
  | nil => simp [advance_offset]
  | cons u rest ih =>
    simp only [batch_ok, Bool.and_eq_true, decide_eq_true_eq] at h
    have h2 := ih (u + 1) h.2
    have heq : advance_offset offset (u :: rest) = advance_offset (u + 1) rest := rfl
    omega

theorem mem_batch_bounds (batch : List Nat) (offset : Nat)
    (h : batch_ok offset batch = true) :
    ∀ uid ∈ batch, offset ≤ uid ∧ uid < advance_offset offset batch := by
  induction batch generalizing offset with
  | nil =>
    intro uid hm
    cases hm
  | cons u rest ih =>
    simp only [batch_ok, Bool.and_eq_true, decide_eq_true_eq] at h
    intro uid hm
    have heq : advance_offset offset (u :: rest) = advance_offset (u + 1) rest := rfl
    rcases List.mem_cons.mp hm with rfl | hm'
    · have h3 := le_advance_offset rest (uid + 1) h.2
      omega
    · have h3 := ih (u + 1) h.2 uid hm'
      omega

theorem batch_sorted (batch : List Nat) (offset : Nat) (h : batch_ok offset batch = true) :
    batch.Pairwise (· < ·) := by
  induction batch generalizing offset with
  | nil => exact List.Pairwise.nil
  | cons u rest ih =>
    simp only [batch_ok, Bool.and_eq_true, decide_eq_true_eq] at h
    refine List.Pairwise.cons (fun x hx => ?_) (ih (u + 1) h.2)
    have h3 := (mem_batch_bounds rest (u + 1) h.2 x hx).1
    omega

theorem le_poll_step (r : PollResult) (offset : Nat)
    (h : r.ok = false ∨ batch_ok offset r.batch = true) :
    offset ≤ poll_step offset r := by
  cases hr : r.ok
  · simp [poll_step, hr]
  · rcases h with hok | hbok
    · rw [hok] at hr
      exact Bool.noConfusion hr
    · simpa [poll_step, hr] using le_advance_offset r.batch offset hbok

theorem le_run_polls (rs : List PollResult) (offset : Nat) (h : feed_ok offset rs = true) :
    offset ≤ run_polls offset rs := by
  induction rs generalizing offset with
  | nil => simp [run_polls]
  | cons r rs ih =>
    simp only [feed_ok, Bool.and_eq_true, Bool.or_eq_true, Bool.not_eq_true'] at h
    exact Nat.le_trans (le_poll_step r offset h.1) (ih (poll_step offset r) h.2)

theorem run_trace_lower (rs : List PollResult) (offset : Nat) (h : feed_ok offset rs = true) :
    ∀ p ∈ run_trace offset rs, offset ≤ p.2 := by
  induction rs generalizing offset with
  | nil =>
    intro p hp
    cases hp
  | cons r rs ih =>
    simp only [feed_ok, Bool.and_eq_true, Bool.or_eq_true, Bool.not_eq_true'] at h
    intro p hp
    rcases List.mem_append.mp hp with hleft | hright
    · cases hr : r.ok
      · rw [hr] at hleft
        simp at hleft
      · rw [hr] at hleft
        simp only [if_pos] at hleft
        have hbok : batch_ok offset r.batch = true := by
          rcases h.1 with hok | hbok
          · rw [hok] at hr
            exact Bool.noConfusion hr
          · exact hbok
        rcases List.mem_map.mp hleft with ⟨uid, huid, rfl⟩
        exact (mem_batch_bounds r.batch offset hbok uid huid).1
    · exact Nat.le_trans (le_poll_step r offset h.1) (ih (poll_step offset r) h.2 p hright)

theorem run_trace_shape (rs : List PollResult) (offset : Nat) :
    ∀ p ∈ run_trace offset rs, p.2 < p.1 := by
  induction rs generalizing offset with
  | nil =>
    intro p hp
    cases hp
  | cons r rs ih =>
    intro p hp
    rcases List.mem_append.mp hp with hleft | hright
    · cases hr : r.ok
      · rw [hr] at hleft
        simp at hleft
      · rw [hr] at hleft
        simp only [if_pos] at hleft
        rcases List.mem_map.mp hleft with ⟨uid, _, rfl⟩
        exact Nat.lt_succ_self uid
    · exact ih (poll_step offset r) p hright

theorem map_snd_process_trace (batch : List Nat) :
    (process_trace batch).map Prod.snd = batch := by
  induction batch with
  | nil => rfl
  | cons u rest ih => simp [process_trace] at ih ⊢; exact ih

theorem run_trace_sorted (rs : List PollResult) (offset : Nat) (h : feed_ok offset rs = true) :
    ((run_trace offset rs).map Prod.snd).Pairwise (· < ·) := by
  induction rs generalizing offset with
  | nil => exact List.Pairwise.nil
  | cons r rs ih =>
    simp only [feed_ok, Bool.and_eq_true, Bool.or_eq_true, Bool.not_eq_true'] at h
    have hih := ih (poll_step offset r) h.2
    show (((if r.ok then process_trace r.batch else []) ++
        run_trace (poll_step offset r) rs).map Prod.snd).Pairwise (· < ·)
    cases hr : r.ok
    · simpa using hih
    · have hbok : batch_ok offset r.batch = true := by
        rcases h.1 with hok | hbok
        · rw [hok] at hr
          exact Bool.noConfusion hr
        · exact hbok
      rw [if_pos rfl, List.map_append, List.pairwise_append, map_snd_process_trace]
      refine ⟨batch_sorted r.batch offset hbok, hih, fun a ha b hb => ?_⟩
      have ha' := (mem_batch_bounds r.batch offset hbok a ha).2
      rcases List.mem_map.mp hb with ⟨p, hp, rfl⟩
      have hb' := run_trace_lower rs (poll_step offset r) h.2 p hp
      have hps : poll_step offset r = advance_offset offset r.batch := by
        simp [poll_step, hr]
      omega

/-- C8: under the long-poll server contract, the update cursor never decreases
across any sequence of polls; every delivered event is evaluated only after the
cursor has been advanced past it; the sequence numbers of all evaluated events
are strictly increasing (so no event at or below an already-passed cursor is
ever processed again); and a failed response or an empty batch leaves the
cursor unchanged. -/
theorem relatos_C8 (offset : Nat) (rs : List PollResult) (h : feed_ok offset rs = true) :
    offset ≤ run_polls offset rs ∧
    (∀ p ∈ run_trace offset rs, p.2 < p.1) ∧
    ((run_trace offset rs).map Prod.snd).Pairwise (· < ·) ∧
    (∀ batch : List Nat, poll_step offset { ok := false, batch := batch } = offset) ∧
    poll_step offset { ok := true, batch := [] } = offset :=
  ⟨le_run_polls rs offset h, run_trace_shape rs offset,
    run_trace_sorted rs offset h, fun _ => rfl, rfl⟩

theorem relatos_C8_witness :
    feed_ok 5 [⟨true, [5, 7]⟩, ⟨false, [2]⟩, ⟨true, [8, 9]⟩] = true ∧
    (5 ≤ run_polls 5 [⟨true, [5, 7]⟩, ⟨false, [2]⟩, ⟨true, [8, 9]⟩] ∧
     (∀ p ∈ run_trace 5 [⟨true, [5, 7]⟩, ⟨false, [2]⟩, ⟨true, [8, 9]⟩], p.2 < p.1) ∧
     ((run_trace 5 [⟨true, [5, 7]⟩, ⟨false, [2]⟩, ⟨true, [8, 9]⟩]).map Prod.snd).Pairwise (· < ·) ∧
     (∀ batch : List Nat, poll_step 5 { ok := false, batch := batch } = 5) ∧
     poll_step 5 { ok := true, batch := [] } = 5) :=
  ⟨by decide, relatos_C8 5 [⟨true, [5, 7]⟩, ⟨false, [2]⟩, ⟨true, [8, 9]⟩] (by decide)⟩
